import Mathlib

/-!
Verification of the address-to-region resolution logic of the `whereis`
GDB command (`checkaddr.py`).  The Python code is shallowly embedded:
Python `int` is modelled by `Int`, Python string builtins
(`str.split`, `str.strip`, `int(s, base)`, `file.readlines`) are given
executable Lean models, exceptions are modelled with `Except`/`Option`,
and the mutable `self.proc_map` field is modelled by explicit state
passing.
-/

deriving instance DecidableEq for Except

/-- Characters treated as whitespace by Python `str.strip()`. -/
def pyIsSpace (c : Char) : Bool :=
  c = ' ' || c = '\t' || c = '\n' || c = '\r' || c = '\x0b' || c = '\x0c'

/-- Model of Python `s.strip()`: drop leading and trailing whitespace. -/
def pyStrip (s : String) : String :=
  String.mk (((s.data.dropWhile pyIsSpace).reverse.dropWhile pyIsSpace).reverse)

/-- Helper for `pySplitChar`: walks the character list, `acc` holds the
current (reversed) chunk.  Mirrors Python `str.split(sep)` with a
one-character separator: every occurrence of the separator ends a chunk,
so consecutive separators produce empty chunks. -/
def pySplitCharAux (c : Char) : List Char → List Char → List (List Char)
  | [], acc => [acc.reverse]
  | x :: xs, acc =>
    if x = c then acc.reverse :: pySplitCharAux c xs []
    else pySplitCharAux c xs (x :: acc)

/-- Model of Python `s.split(c)` for a single-character separator `c`:
splits at every occurrence of `c`, keeping empty pieces
(`"a  b".split(' ') == ["a", "", "b"]`, `"".split(' ') == [""]`). -/
def pySplitChar (c : Char) (s : String) : List String :=
  (pySplitCharAux c s.data []).map String.mk

/-- Value of an alphanumeric digit character (`0`-`9`, `a`-`z`, `A`-`Z`),
as used by Python `int(s, base)`. -/
def digitVal (c : Char) : Option Nat :=
  if '0' ≤ c && c ≤ '9' then some (c.toNat - '0'.toNat)
  else if 'a' ≤ c && c ≤ 'z' then some (c.toNat - 'a'.toNat + 10)
  else if 'A' ≤ c && c ≤ 'Z' then some (c.toNat - 'A'.toNat + 10)
  else none

/-- Value of a nonempty digit string in the given base; `none` when the
string is empty or contains a character that is not a digit of the base. -/
def digitsVal (base : Nat) (l : List Char) : Option Nat :=
  if l.isEmpty then none
  else
    l.foldl (fun acc c =>
      match acc, digitVal c with
      | some a, some d => if d < base then some (a * base + d) else none
      | _, _ => none) (some 0)

/-- Drop an optional `0x` / `0X` at the front of a hex digit string, as
accepted by Python `int(s, 16)`. -/
def dropHex0x : List Char → List Char
  | '0' :: x :: rest =>
    if x = 'x' || x = 'X' then rest else '0' :: x :: rest
  | l => l

/-- Model of Python `int(s, 16)`: strip whitespace, optional sign,
optional `0x` prefix, then hexadecimal digits; `none` models the
`ValueError` raised on anything else.  (The rarely used underscore digit
separators of Python numerals are outside the model; no input in this
development contains them.) -/
def pyIntHex (s : String) : Option Int :=
  match (pyStrip s).data with
  | '-' :: rest => (digitsVal 16 (dropHex0x rest)).map (fun n => -(n : Int))
  | '+' :: rest => (digitsVal 16 (dropHex0x rest)).map (fun n => (n : Int))
  | l => (digitsVal 16 (dropHex0x l)).map (fun n => (n : Int))

/-- Unsigned part of Python `int(s, 0)` (base-agnostic numeral parsing):
`0x`/`0X` hexadecimal, `0o`/`0O` octal, `0b`/`0B` binary, a string of
zeros, or a decimal numeral with no leading zero. -/
def pyUnsignedBase0 : List Char → Option Nat
  | '0' :: x :: rest =>
    if x = 'x' || x = 'X' then digitsVal 16 rest
    else if x = 'o' || x = 'O' then digitsVal 8 rest
    else if x = 'b' || x = 'B' then digitsVal 2 rest
    else if ('0' :: x :: rest).all (fun d => d = '0') then some 0
    else none
  | l => digitsVal 10 l

/-- Model of Python `int(s, 0)`: strip whitespace, optional sign, then a
base-agnostic unsigned numeral; `none` models `ValueError`. -/
def pyIntBase0 (s : String) : Option Int :=
  match (pyStrip s).data with
  | '-' :: rest => (pyUnsignedBase0 rest).map (fun n => -(n : Int))
  | '+' :: rest => (pyUnsignedBase0 rest).map (fun n => (n : Int))
  | l => (pyUnsignedBase0 l).map (fun n => (n : Int))

/-- Helper for `pyReadlines`; `acc` holds the current (reversed) line. -/
def pyReadlinesAux : List Char → List Char → List String
  | [], [] => []
  | [], acc => [String.mk acc.reverse]
  | c :: rest, acc =>
    if c = '\n' then String.mk (acc.reverse ++ ['\n']) :: pyReadlinesAux rest []
    else pyReadlinesAux rest (c :: acc)

/-- Model of Python `f.readlines()` on the file's text: split into lines,
each keeping its trailing newline; a final fragment without a newline is
still a line; empty text gives no lines. -/
def pyReadlines (s : String) : List String := pyReadlinesAux s.data []

/-- Hexadecimal digits of `n`, most significant first; `fuel` bounds the
recursion (`n + 1` always suffices). -/
def natToHexAux (fuel : Nat) (n : Nat) (acc : List Char) : List Char :=
  match fuel with
  | 0 => acc
  | fuel + 1 =>
    if n < 16 then Nat.digitChar n :: acc
    else natToHexAux fuel (n / 16) (Nat.digitChar (n % 16) :: acc)

/-- Lowercase hexadecimal rendering of a natural number, as produced by
Python `"{0:x}".format(n)` for `n ≥ 0`. -/
def natToHex (n : Nat) : String := String.mk (natToHexAux (n + 1) n [])

/-- Hexadecimal rendering of a Python int (negative values are rendered
with a leading minus sign, as by Python's `x` format). -/
def intToHex (i : Int) : String :=
  if i < 0 then "-" ++ natToHex i.natAbs else natToHex i.toNat

/-- Join strings with a single-character separator (inverse of
`pySplitChar` on separator-free tokens). -/
def joinChar (c : Char) : List String → String
  | [] => ""
  | [t] => t
  | t :: t2 :: ts => t ++ String.singleton c ++ joinChar c (t2 :: ts)

/-- Python exceptions relevant to `checkaddr.py`. -/
inductive PyErr where
  | indexError : PyErr
  | valueError : PyErr
  | gdbError : PyErr
deriving DecidableEq

/-- One parsed proc-maps entry (`ProcMapsStruct` in `checkaddr.py`):
the stripped raw line, the permissions field, the path/label field, and
the start and end addresses. -/
structure ProcMapsStruct where
  line : String
  perms : String
  name : String
  start : Int
  «end» : Int
deriving DecidableEq

/-- Embedding of `ProcMapsStruct.__init__`: `perms = line.split(' ')[1]`,
`name = line.split(' ')[-1]`, the first space-field is split on `-` and
both halves parsed with `int(_, 16)`.  `Except.error` models the
`IndexError` (missing field or missing `-`) and `ValueError` (non-hex
half) the unguarded Python code raises, in the order Python evaluates. -/
def parseLine (line : String) : Except PyErr ProcMapsStruct :=
  let fields := pySplitChar ' ' line
  match fields.get? 1 with
  | none => .error .indexError
  | some perms =>
    let name := fields.getLastD ""
    let addrs := fields.headD ""
    let halves := pySplitChar '-' addrs
    match pyIntHex (halves.headD "") with
    | none => .error .valueError
    | some startv =>
      match halves.get? 1 with
      | none => .error .indexError
      | some h2 =>
        match pyIntHex h2 with
        | none => .error .valueError
        | some endv => .ok ⟨pyStrip line, perms, name, startv, endv⟩

/-- Embedding of `ProcMapsStruct.within_range`:
`addr >= self.start and addr < self.end`. -/
def ProcMapsStruct.within_range (r : ProcMapsStruct) (addr : Int) : Bool :=
  addr ≥ r.start && addr < r.«end»

/-- Embedding of `ProcMapsStruct.offset`: `addr - self.start`. -/
def ProcMapsStruct.offset (r : ProcMapsStruct) (addr : Int) : Int :=
  addr - r.start

/-- Embedding of `ProcMapsStruct.__str__`:
`"{0:s} (size: {1:d} Bytes)".format(self.line, self.end - self.start)`. -/
def ProcMapsStruct.pyStr (r : ProcMapsStruct) : String :=
  r.line ++ " (size: " ++ toString (r.«end» - r.start) ++ " Bytes)"

/-- Python `str(entry)` where `entry` is an `Optional[ProcMapsStruct]`:
`str(None)` is the text `"None"`. -/
def pyStrOpt : Option ProcMapsStruct → String
  | none => "None"
  | some r => r.pyStr

/-- Embedding of `CheckAddress.find_containing_procentry`:
`next((x for x in self.proc_map if x.within_range(addr)), None)` —
the first entry containing the address, or `none`. -/
def find_containing_procentry (pm : List ProcMapsStruct) (addr : Int) :
    Option ProcMapsStruct :=
  pm.find? (fun x => x.within_range addr)

/-- Parsing of a whole proc-maps snapshot, as done by
`CheckAddress.read_procmaps`: `[ProcMapsStruct(line) for line in
f.readlines()]`; the comprehension stops at the first raising line. -/
def parseProcMaps (text : String) : Except PyErr (List ProcMapsStruct) :=
  (pyReadlines text).mapM parseLine

/-- State semantics of `CheckAddress.read_procmaps`: the list
comprehension is fully evaluated before `self.proc_map` is assigned, so
on a parse error the old state is kept and the error propagates. -/
def read_procmaps (st : List ProcMapsStruct) (text : String) :
    List ProcMapsStruct × Option PyErr :=
  match parseProcMaps text with
  | .ok l => (l, none)
  | .error e => (st, some e)

/-- The line printed for one resolved address (lines 112-116 of
`checkaddr.py`): on a hit, address, offset and the entry's string form;
on a miss, address, `Offset: None` and `str(entry)` with `entry = None`. -/
def lookupOutput (pm : List ProcMapsStruct) (addr : Int) : String :=
  match find_containing_procentry pm addr with
  | some entry =>
    "0x" ++ intToHex addr ++ ", Offset: 0x" ++ intToHex (entry.offset addr) ++
      ":\n" ++ entry.pyStr
  | none =>
    "0x" ++ intToHex addr ++ ", Offset: None:\n" ++ pyStrOpt none

/-- The symbol branch of the token loop: `get_symbol_addr` (the gdb
symbol service, an external collaborator returning a `(label, value)`
pair of strings or raising) followed by `int(s2, 0)` and the printing of
the label.  A `none` numeral parse of `s2` models the `ValueError` the
uncaught `int` call raises. -/
def symbolDelegate (svc : String → Except PyErr (String × String))
    (a : String) : Except PyErr (Option String × Int) :=
  match svc a with
  | .error e => .error e
  | .ok (s1, s2) =>
    match pyIntBase0 s2 with
    | none => .error .valueError
    | some v => .ok (some (s1 ++ ":"), v)

/-- Resolution of one token of the `whereis` argument list (lines
104-111 of `checkaddr.py`): `int(a, 0)` first; on `ValueError`, delegate
to the symbol service.  Returns the optional label line to print and the
resolved address. -/
def resolveToken (svc : String → Except PyErr (String × String))
    (a : String) : Except PyErr (Option String × Int) :=
  match pyIntBase0 a with
  | some v => .ok (none, v)
  | none => symbolDelegate svc a

/-- The token loop of `CheckAddress.invoke` (lines 103-116): each token
is resolved and its lines printed; an uncaught exception aborts the loop,
keeping the outputs printed so far and recording the error. -/
def processTokens (svc : String → Except PyErr (String × String))
    (pm : List ProcMapsStruct) : List String → List String × Option PyErr
  | [] => ([], none)
  | a :: rest =>
    match resolveToken svc a with
    | .error e => ([], some e)
    | .ok (label, addr) =>
      let r := processTokens svc pm rest
      (label.toList ++ lookupOutput pm addr :: r.1, r.2)

/-- The gdb inferior, as seen through `gdb.selected_inferior()`. -/
structure Inferior where
  pid : Int
  is_valid : Bool

/-- Observable outcome of one `invoke` call: the stored `proc_map` state
after the call, the printed lines, whether the maps snapshot was read,
and the propagated exception if any. -/
structure InvokeResult where
  proc_map : List ProcMapsStruct
  outputs : List String
  maps_read : Bool
  err : Option PyErr
deriving DecidableEq

/-- Embedding of `CheckAddress.invoke`: return immediately when the
inferior is invalid or its pid is non-positive; otherwise read and parse
the maps snapshot (replacing the stored state only on success), print
the whole map listing when there are no arguments and the call is from a
tty, and otherwise run the token loop. -/
def invoke (svc : String → Except PyErr (String × String)) (inf : Inferior)
    (maps_text : String) (from_tty : Bool) (tokens : List String)
    (st : List ProcMapsStruct) : InvokeResult :=
  if inf.is_valid = false ∨ inf.pid ≤ 0 then ⟨st, [], false, none⟩
  else
    match parseProcMaps maps_text with
    | .error e => ⟨st, [], true, some e⟩
    | .ok pm =>
      if tokens.isEmpty && from_tty then
        ⟨pm, pm.map ProcMapsStruct.pyStr, true, none⟩
      else
        let r := processTokens svc pm tokens
        ⟨pm, r.1, true, r.2⟩

/-- A symbol service that resolves nothing (every lookup raises
`gdb.error`), used to instantiate theorems at concrete inputs. -/
def noSvc : String → Except PyErr (String × String) :=
  fun _ => .error .gdbError

/-! ### Helper lemmas -/

theorem string_mk_data (s : String) : String.mk s.data = s := rfl

theorem string_data_append (a b : String) : (a ++ b).data = a.data ++ b.data := rfl

/-- `List.find?` returns `some r` exactly when `r` satisfies the predicate
and is the first element of the list to do so. -/
theorem find?_eq_some_first {α : Type} (p : α → Bool) (l : List α) (r : α) :
    l.find? p = some r ↔
      p r = true ∧ ∃ l1 l2, l = l1 ++ r :: l2 ∧ ∀ x ∈ l1, ¬ p x = true := by
  induction l with
  | nil =>
    constructor
    · intro h; simp [List.find?] at h
    · rintro ⟨_, l1, l2, heq, _⟩
      exact absurd heq (by simp)
  | cons a as ih =>
    cases hpa : p a with
    | true =>
      rw [List.find?_cons_of_pos _ hpa]
      constructor
      · intro h
        injection h with h
        subst h
        exact ⟨hpa, [], as, rfl, by intro x hx; cases hx⟩
      · rintro ⟨hr, l1, l2, heq, hall⟩
        cases l1 with
        | nil =>
          rw [List.nil_append] at heq
          injection heq with h1 _
          rw [h1]
        | cons b bs =>
          rw [List.cons_append] at heq
          injection heq with h1 _
          subst h1
          exact absurd hpa (hall a (List.mem_cons_self a bs))
    | false =>
      rw [List.find?_cons_of_neg _ (by simp [hpa]), ih]
      constructor
      · rintro ⟨hr, l1, l2, heq, hall⟩
        refine ⟨hr, a :: l1, l2, by rw [List.cons_append, heq], ?_⟩
        intro x hx
        rcases List.mem_cons.mp hx with h | h
        · subst h; simp [hpa]
        · exact hall x h
      · rintro ⟨hr, l1, l2, heq, hall⟩
        cases l1 with
        | nil =>
          rw [List.nil_append] at heq
          injection heq with h1 _
          subst h1
          rw [hpa] at hr
          exact absurd hr (by simp)
        | cons b bs =>
          rw [List.cons_append] at heq
          injection heq with h1 h2
          subst h1
          exact ⟨hr, bs, l2, h2, fun x hx => hall x (List.mem_cons_of_mem _ hx)⟩

/-- Splitting a separator-free chunk yields that single chunk. -/
theorem pySplitCharAux_no_sep (c : Char) (l : List Char) :
    ∀ acc : List Char, ¬ c ∈ l → pySplitCharAux c l acc = [acc.reverse ++ l] := by
  induction l with
  | nil => intro acc _; simp [pySplitCharAux]
  | cons x xs ih =>
    intro acc h
    have h1 : ¬ c ∈ xs := fun hc => h (List.mem_cons_of_mem x hc)
    have hx : ¬ x = c := by
      intro hh; apply h; rw [hh]; exact List.mem_cons_self c xs
    simp only [pySplitCharAux, if_neg hx]
    rw [ih (x :: acc) h1]
    simp

/-- Splitting past a separator-free chunk followed by the separator emits
that chunk and continues on the rest. -/
theorem pySplitCharAux_sep (c : Char) (rest : List Char) (t : List Char) :
    ∀ acc : List Char, ¬ c ∈ t →
      pySplitCharAux c (t ++ c :: rest) acc =
        (acc.reverse ++ t) :: pySplitCharAux c rest [] := by
  induction t with
  | nil => intro acc _; simp [pySplitCharAux]
  | cons x xs ih =>
    intro acc h
    have h1 : ¬ c ∈ xs := fun hc => h (List.mem_cons_of_mem x hc)
    have hx : ¬ x = c := by
      intro hh; apply h; rw [hh]; exact List.mem_cons_self c xs
    simp only [List.cons_append, pySplitCharAux, if_neg hx, List.append_eq]
    rw [ih (x :: acc) h1]
    simp

/-- On a nonempty list of separator-free tokens, `pySplitChar` is a left
inverse of `joinChar`. -/
theorem pySplitChar_joinChar (c : Char) :
    ∀ ts : List String, ts ≠ [] → (∀ t ∈ ts, ¬ c ∈ t.data) →
      pySplitChar c (joinChar c ts) = ts := by
  intro ts
  induction ts with
  | nil => intro hne _; exact absurd rfl hne
  | cons t ts ih =>
    intro _ h
    cases ts with
    | nil =>
      unfold pySplitChar
      simp only [joinChar]
      rw [pySplitCharAux_no_sep c t.data [] (h t (List.mem_cons_self t []))]
      simp [string_mk_data]
    | cons t2 ts2 =>
      unfold pySplitChar
      have hd : (joinChar c (t :: t2 :: ts2)).data
          = t.data ++ c :: (joinChar c (t2 :: ts2)).data := by
        simp only [joinChar]
        rw [string_data_append, string_data_append]
        simp [String.singleton]
      rw [hd]
      rw [pySplitCharAux_sep c ((joinChar c (t2 :: ts2)).data) t.data []
        (h t (List.mem_cons_self t _))]
      have hih := ih (by simp) (fun x hx => h x (List.mem_cons_of_mem t hx))
      unfold pySplitChar at hih
      simp only [List.map_cons, List.reverse_nil, List.nil_append, string_mk_data]
      rw [hih]

/-! ### Claim theorems -/

/-- C1: `find_containing_procentry` returns a region `r` iff
`r.start ≤ addr < r.end` for some region in the index; when several
regions contain `addr` it returns the first one in listing order, and
when no region contains `addr` it returns the explicit not-found value
`none` rather than any region. -/
theorem find_containing_procentry_spec (pm : List ProcMapsStruct) (addr : Int) :
    (∀ r : ProcMapsStruct,
      r.within_range addr = true ↔ r.start ≤ addr ∧ addr < r.«end») ∧
    (find_containing_procentry pm addr = none ↔
      ∀ r ∈ pm, ¬ r.within_range addr = true) ∧
    (∀ r : ProcMapsStruct, find_containing_procentry pm addr = some r ↔
      r.within_range addr = true ∧
      ∃ l1 l2, pm = l1 ++ r :: l2 ∧ ∀ x ∈ l1, ¬ x.within_range addr = true) := by
  refine ⟨?_, ?_, ?_⟩
  · intro r
    simp [ProcMapsStruct.within_range, ge_iff_le]
  · exact List.find?_eq_none
  · intro r
    exact find?_eq_some_first _ pm r

/-- C1 witness: on a concrete two-region index whose regions both contain
the address, the first region in listing order is returned. -/
theorem find_containing_procentry_spec_witness :
    find_containing_procentry
      [⟨"a", "p", "n", 0, 10⟩, ⟨"b", "q", "m", 5, 20⟩] 7 =
        some ⟨"a", "p", "n", 0, 10⟩ :=
  ((find_containing_procentry_spec
      [⟨"a", "p", "n", 0, 10⟩, ⟨"b", "q", "m", 5, 20⟩] 7).2.2
    ⟨"a", "p", "n", 0, 10⟩).mpr
    ⟨by decide, [], [⟨"b", "q", "m", 5, 20⟩], rfl, by decide⟩

/-- C6: for a region containing `addr`, `offset` returns exactly
`addr - start`, and `0 ≤ offset < end - start`. -/
theorem offset_spec (r : ProcMapsStruct) (addr : Int)
    (h1 : r.start ≤ addr) (h2 : addr < r.«end») :
    r.offset addr = addr - r.start ∧ 0 ≤ r.offset addr ∧
      r.offset addr < r.«end» - r.start := by
  refine ⟨rfl, ?_, ?_⟩ <;> simp only [ProcMapsStruct.offset] <;> omega

/-- C6 witness: concrete region `[0, 10)` and address `4`. -/
theorem offset_spec_witness :
    (⟨"a", "p", "n", 0, 10⟩ : ProcMapsStruct).offset 4 = 4 - 0 ∧
      0 ≤ (⟨"a", "p", "n", 0, 10⟩ : ProcMapsStruct).offset 4 ∧
      (⟨"a", "p", "n", 0, 10⟩ : ProcMapsStruct).offset 4 < 10 - 0 :=
  offset_spec ⟨"a", "p", "n", 0, 10⟩ 4 (by decide) (by decide)

/-- C8: parsing is deterministic — parsing the same snapshot text twice
yields the same result, and two successful parses of the same text agree
element for element. -/
theorem parseProcMaps_deterministic (text : String) :
    parseProcMaps text = parseProcMaps text ∧
    ∀ l1 l2 : List ProcMapsStruct,
      parseProcMaps text = .ok l1 → parseProcMaps text = .ok l2 →
        l1.length = l2.length ∧ ∀ i, l1.get? i = l2.get? i := by
  refine ⟨rfl, ?_⟩
  intro l1 l2 h1 h2
  rw [h1] at h2
  injection h2 with h2
  subst h2
  exact ⟨rfl, fun i => rfl⟩

/-- C8 witness: the two parses of a concrete snapshot agree at index 0. -/
theorem parseProcMaps_deterministic_witness :
    ([⟨"0-1 p x", "p", "x", 0, 1⟩] : List ProcMapsStruct).get? 0 =
      ([⟨"0-1 p x", "p", "x", 0, 1⟩] : List ProcMapsStruct).get? 0 :=
  ((parseProcMaps_deterministic "0-1 p x").2
    [⟨"0-1 p x", "p", "x", 0, 1⟩] [⟨"0-1 p x", "p", "x", 0, 1⟩]
    (by decide) (by decide)).2 0

/-- C9: `read_procmaps` is atomic — when parsing the snapshot raises, the
stored index is left exactly as it was (the list comprehension is fully
evaluated before the assignment to `self.proc_map`); when parsing
succeeds, the complete new snapshot is installed. -/
theorem read_procmaps_atomic (st : List ProcMapsStruct) (text : String) :
    (∀ e : PyErr, parseProcMaps text = .error e →
      read_procmaps st text = (st, some e)) ∧
    (∀ l : List ProcMapsStruct, parseProcMaps text = .ok l →
      read_procmaps st text = (l, none)) := by
  constructor
  · intro e h
    simp [read_procmaps, h]
  · intro l h
    simp [read_procmaps, h]

/-- C9 witness: a malformed line (`"zz p"`, non-hex address) fails parse
and leaves the concrete previous index untouched. -/
theorem read_procmaps_atomic_witness :
    read_procmaps [⟨"a", "p", "n", 0, 10⟩] "zz p" =
      ([⟨"a", "p", "n", 0, 10⟩], some PyErr.valueError) :=
  (read_procmaps_atomic [⟨"a", "p", "n", 0, 10⟩] "zz p").1
    PyErr.valueError (by decide)

/-- C10: when the selected inferior is invalid or has `pid ≤ 0`, `invoke`
returns immediately: the snapshot is not read, no output is produced, no
error is raised, and the stored index is unchanged. -/
theorem invoke_invalid_inferior (svc : String → Except PyErr (String × String))
    (inf : Inferior) (maps_text : String) (from_tty : Bool)
    (tokens : List String) (st : List ProcMapsStruct)
    (h : inf.is_valid = false ∨ inf.pid ≤ 0) :
    invoke svc inf maps_text from_tty tokens st = ⟨st, [], false, none⟩ := by
  unfold invoke
  rw [if_pos h]

/-- C10 witness: a valid inferior with pid 0 on a concrete state. -/
theorem invoke_invalid_inferior_witness :
    invoke noSvc ⟨0, true⟩ "0-1 p x" true ["0x5"] [⟨"a", "p", "n", 0, 10⟩] =
      ⟨[⟨"a", "p", "n", 0, 10⟩], [], false, none⟩ :=
  invoke_invalid_inferior noSvc ⟨0, true⟩ "0-1 p x" true ["0x5"]
    [⟨"a", "p", "n", 0, 10⟩] (Or.inr (by decide))

/-- C2 counterexample: the line `"5-3 p x"` has parsed start 5 ≥ parsed
end 3, yet the parse succeeds and produces that region — it is not a
parse error. -/
theorem parseProcMaps_start_ge_end_ok :
    parseProcMaps "5-3 p x" = .ok [⟨"5-3 p x", "p", "x", 5, 3⟩] ∧
    ¬ ((5 : Int) < 3) := by decide

/-- Core field-extraction lemma for `parseLine` on single-space-separated
lines: the second field is the permissions string, the last field is the
path/label, and the first field's two `-`-halves are parsed as
hexadecimal into start and end, both taken verbatim with no constraint
relating them. -/
theorem parseLine_fields_aux (t0 t1 : String) (rest : List String)
    (a b : String) (va vb : Int)
    (hsp : ∀ t ∈ t0 :: t1 :: rest, ¬ ' ' ∈ t.data)
    (h0 : t0 = a ++ "-" ++ b)
    (hda : ¬ '-' ∈ a.data) (hdb : ¬ '-' ∈ b.data)
    (hva : pyIntHex a = some va) (hvb : pyIntHex b = some vb) :
    parseLine (joinChar ' ' (t0 :: t1 :: rest)) =
      Except.ok ⟨pyStrip (joinChar ' ' (t0 :: t1 :: rest)), t1,
        (t0 :: t1 :: rest).getLastD "", va, vb⟩ := by
  have hsing : String.singleton '-' = "-" := by decide
  have hfields :
      pySplitChar ' ' (joinChar ' ' (t0 :: t1 :: rest)) = t0 :: t1 :: rest :=
    pySplitChar_joinChar ' ' _ (by simp) hsp
  have hj : joinChar '-' [a, b] = t0 := by
    simp only [joinChar]
    rw [h0, hsing]
  have hhalves : pySplitChar '-' t0 = [a, b] := by
    rw [← hj]
    refine pySplitChar_joinChar '-' [a, b] (by simp) ?_
    intro t ht
    rcases List.mem_cons.mp ht with h | h
    · subst h; exact hda
    · rcases List.mem_cons.mp h with h | h
      · subst h; exact hdb
      · cases h
  simp only [parseLine]
  rw [hfields]
  simp only [List.get?, List.headD]
  rw [hhalves]
  simp only [List.get?, List.headD]
  rw [hva, hvb]

/-- C2 amended: the parser performs no start < end validation — a
well-formed line whose parsed start address is greater than or equal to
its parsed end address still parses successfully, producing a region
whose start and end are taken verbatim from the two hexadecimal halves;
it is neither a parse error nor silently ignored. -/
theorem parseLine_start_ge_end_verbatim (t0 t1 : String) (rest : List String)
    (a b : String) (va vb : Int)
    (hsp : ∀ t ∈ t0 :: t1 :: rest, ¬ ' ' ∈ t.data)
    (h0 : t0 = a ++ "-" ++ b)
    (hda : ¬ '-' ∈ a.data) (hdb : ¬ '-' ∈ b.data)
    (hva : pyIntHex a = some va) (hvb : pyIntHex b = some vb)
    (_hge : vb ≤ va) :
    parseLine (joinChar ' ' (t0 :: t1 :: rest)) =
      Except.ok ⟨pyStrip (joinChar ' ' (t0 :: t1 :: rest)), t1,
        (t0 :: t1 :: rest).getLastD "", va, vb⟩ :=
  parseLine_fields_aux t0 t1 rest a b va vb hsp h0 hda hdb hva hvb

/-- C2 witness: the start ≥ end line `"5-3 p x"` parses successfully with
start 5 and end 3 taken verbatim. -/
theorem parseLine_start_ge_end_verbatim_witness :
    parseLine (joinChar ' ' ["5-3", "p", "x"]) =
      Except.ok ⟨pyStrip (joinChar ' ' ["5-3", "p", "x"]), "p",
        (["5-3", "p", "x"] : List String).getLastD "", 5, 3⟩ :=
  parseLine_start_ge_end_verbatim "5-3" "p" ["x"] "5" "3" 5 3
    (by decide) (by decide) (by decide) (by decide) (by decide) (by decide)
    (by decide)

/-- C3 counterexample: the not-found branch does stringify the missing
region: for address 0 on an empty index the emitted line ends with
`"None"`, the Python `str(entry)` of the `None` entry, rather than being
the address and `Offset: None` alone. -/
theorem notfound_output_counterexample :
    lookupOutput [] 0 = "0x0, Offset: None:\n" ++ pyStrOpt none ∧
    pyStrOpt none = "None" ∧
    lookupOutput [] 0 ≠ "0x0, Offset: None" := by decide

/-- C3 amended: for every address no region contains, the emitted line is
the address in hexadecimal, the explicit text `Offset: None:`, and then
the stringification `"None"` of the absent region — the branch is
structurally distinct from the found branch and cannot crash, but it does
stringify the `None` value. -/
theorem notfound_output (pm : List ProcMapsStruct) (addr : Int)
    (h : find_containing_procentry pm addr = none) :
    lookupOutput pm addr =
      "0x" ++ intToHex addr ++ ", Offset: None:\n" ++ "None" := by
  unfold lookupOutput
  rw [h]
  rfl

/-- C3 witness: concrete miss on the empty index. -/
theorem notfound_output_witness :
    lookupOutput [] 3 = "0x" ++ intToHex 3 ++ ", Offset: None:\n" ++ "None" :=
  notfound_output [] 3 (by decide)

/-- C4 counterexample: the parser splits on the single space character,
not on general whitespace: with two spaces between the address pair and
the permissions field the permissions come out as the empty string, not
`"r-xp"`; and on a line with no path field the last token is the
preceding field (`"0"`), not the empty string. -/
theorem parseLine_split_counterexample :
    parseLine "0-1  r-xp x" = .ok ⟨"0-1  r-xp x", "", "x", 0, 1⟩ ∧
    ("" : String) ≠ "r-xp" ∧
    parseLine "0-1 r 0" = .ok ⟨"0-1 r 0", "r", "0", 0, 1⟩ := by decide

/-- C4 amended: parsing splits the line on single space characters; when
the fields are separated by exactly one space each, the second field is
the permissions string and the last field is the path/label, and the
address pair is the first field split on `-` with both halves parsed as
hexadecimal. -/
theorem parseLine_fields (t0 t1 : String) (rest : List String)
    (a b : String) (va vb : Int)
    (hsp : ∀ t ∈ t0 :: t1 :: rest, ¬ ' ' ∈ t.data)
    (h0 : t0 = a ++ "-" ++ b)
    (hda : ¬ '-' ∈ a.data) (hdb : ¬ '-' ∈ b.data)
    (hva : pyIntHex a = some va) (hvb : pyIntHex b = some vb) :
    parseLine (joinChar ' ' (t0 :: t1 :: rest)) =
      Except.ok ⟨pyStrip (joinChar ' ' (t0 :: t1 :: rest)), t1,
        (t0 :: t1 :: rest).getLastD "", va, vb⟩ :=
  parseLine_fields_aux t0 t1 rest a b va vb hsp h0 hda hdb hva hvb

/-- C4 witness: the canonical single-space line `"0-1 r-xp x"`. -/
theorem parseLine_fields_witness :
    parseLine (joinChar ' ' ["0-1", "r-xp", "x"]) =
      Except.ok ⟨pyStrip (joinChar ' ' ["0-1", "r-xp", "x"]), "r-xp",
        (["0-1", "r-xp", "x"] : List String).getLastD "", 0, 1⟩ :=
  parseLine_fields "0-1" "r-xp" ["x"] "0" "1" 0 1
    (by decide) (by decide) (by decide) (by decide) (by decide) (by decide)

/-- C5 counterexample: with a symbol service that resolves nothing, the
token `"zzz"` (neither a numeral nor resolvable) aborts the loop: the run
on `["zzz", "0x10"]` produces no output at all, while `"0x10"` alone
would have produced its lookup line — processing of the remaining tokens
does not continue. -/
theorem processTokens_abort_counterexample :
    processTokens noSvc [] ["zzz", "0x10"] = ([], some PyErr.gdbError) ∧
    processTokens noSvc [] ["0x10"] = (["0x10, Offset: None:\nNone"], none) := by
  decide

/-- C5 amended: a token that is neither a valid numeral nor a resolvable
symbol raises an uncaught error that aborts the token loop: no output is
produced for it, and the remaining tokens are not processed at all. -/
theorem processTokens_abort (svc : String → Except PyErr (String × String))
    (pm : List ProcMapsStruct) (a : String) (rest : List String) (e : PyErr)
    (h : resolveToken svc a = .error e) :
    processTokens svc pm (a :: rest) = ([], some e) := by
  unfold processTokens
  rw [h]

/-- C5 witness: the unresolvable token `"zz"` followed by `"1"`. -/
theorem processTokens_abort_witness :
    processTokens noSvc [] ["zz", "1"] = ([], some PyErr.gdbError) :=
  processTokens_abort noSvc [] "zz" ["1"] PyErr.gdbError (by decide)

/-- C7: a token that parses as an integer literal under Python's
base-agnostic numeral parsing (`int(a, 0)`: `0x` hex, `0o` octal, `0b`
binary, plain decimal) resolves directly to the parsed value, with no
label and no dependence on — hence no invocation of — the symbol
service; a token with no numeral parse is delegated to the symbol
service. -/
theorem resolveToken_spec (svc svc' : String → Except PyErr (String × String))
    (a : String) :
    (∀ v : Int, pyIntBase0 a = some v →
      resolveToken svc a = .ok (none, v) ∧
        resolveToken svc a = resolveToken svc' a) ∧
    (pyIntBase0 a = none → resolveToken svc a = symbolDelegate svc a) := by
  constructor
  · intro v h
    constructor
    · unfold resolveToken
      rw [h]
    · unfold resolveToken
      rw [h]
  · intro h
    unfold resolveToken
    rw [h]

/-- C7 witness: `"0x1000"` resolves directly to 4096 without the symbol
service; `"main"` is delegated to the symbol service. -/
theorem resolveToken_spec_witness :
    resolveToken noSvc "0x1000" = .ok (none, 4096) ∧
    resolveToken noSvc "main" = symbolDelegate noSvc "main" :=
  ⟨((resolveToken_spec noSvc noSvc "0x1000").1 4096 (by decide)).1,
    (resolveToken_spec noSvc noSvc "main").2 (by decide)⟩

